import Mathlib

/-!
# Smart waste bin monitor (Nucleo-F401RE): verification of `main.cpp`

A shallow embedding of `src/main.cpp`.

* C `float` values are embedded as exact rationals (`ℚ`): every arithmetic
  step of the program is taken without rounding.
* The hardware (pins, timers) is outside the program.  Every value the program
  reads from it comes from an input trace in `Env`; the `k`-th read of a line
  returns the `k`-th entry of that line's trace.  Everything the program
  writes is kept in `State` (output levels) and appended to `State.log`.
* The two busy-wait loops of `measure_distance_cm` may spin for ever, so the
  functions that contain them take a fuel argument bounding the number of
  loop iterations and return `none` when it runs out.
-/

namespace WasteBin

/-! ## Data model -/

/-- Lines the program prints (the arguments of the `printf` calls of the main loop). -/
inductive Msg where
  | containerOpenPaused
  | noEchoDetected
  | fillLevel (fill_percent : ℚ)
  | barOpen
  | barCell (filled : Bool)
  | barClose
  | alertFlame
  | noFlame
  | light (is_bright : Bool)
  | ir (object_detected : Bool)
  | lightsOn
  | containerStatus (container_open : Bool)
  | separator
  deriving DecidableEq, Repr

/-- Functions whose entry is recorded in the log. -/
inductive Fn where
  | measure_distance_cm
  | get_filtered_distance
  deriving DecidableEq, Repr

/-- Observable actions of the program, in the order they happen. -/
inductive Event where
  | call (f : Fn)
  | trigWrite (v : Int)
  | echoRead
  | waitUs (n : Nat)
  | waitMs (n : Nat)
  | timeoutReset
  | timeoutStart
  | timeoutStop
  | timeoutReadMs
  | timerReset
  | timerStart
  | timerStop
  | timerReadUs
  | tiltRead
  | flameRead
  | brightnessRead
  | irRead
  | ledWrite (led : Nat) (v : Int)
  | print (m : Msg)
  deriving DecidableEq, Repr

/-- Input traces: what each successive read of a hardware line returns. -/
structure Env where
  /-- Successive values of `echo` (pin D3). -/
  echoIn : Nat → Int
  /-- Successive values of `timeout.read_ms()`. -/
  msIn : Nat → Int
  /-- Successive values of `timer.read_us()`. -/
  usIn : Nat → Int
  /-- Successive values of `tilt_sensor.read()`. -/
  tiltIn : Nat → Int
  /-- Successive values of `flame.read()`. -/
  flameIn : Nat → Int
  /-- Successive values of `brightness_sensor.read()`. -/
  brightIn : Nat → Int
  /-- Successive values of `ir_detector.read()`. -/
  irIn : Nat → Int

/-- Program-visible state: how many reads each line has served, the output
levels, and the log of actions. -/
structure State where
  echoN : Nat
  msN : Nat
  usN : Nat
  tiltN : Nat
  flameN : Nat
  brightN : Nat
  irN : Nat
  trig : Int
  led1 : Int
  led2 : Int
  led3 : Int
  log : List Event
  deriving DecidableEq, Repr

/-- Height of the bin, from sensor to bottom: `const float BIN_HEIGHT_CM = 150.0f;` -/
def BIN_HEIGHT_CM : ℚ := 150

/-! ## Hardware primitives -/

@[simps]
def emit (e : Event) (s : State) : State :=
  { s with log := s.log ++ [e] }

/-- The assignment `trig = v`. -/
@[simps]
def trigSet (v : Int) (s : State) : State :=
  { s with trig := v, log := s.log ++ [.trigWrite v] }

/-- One read of `echo`. -/
@[simps]
def echoGet (env : Env) (s : State) : Int × State :=
  (env.echoIn s.echoN, { s with echoN := s.echoN + 1, log := s.log ++ [.echoRead] })

/-- One call of `timeout.read_ms()`. -/
@[simps]
def timeoutReadMs (env : Env) (s : State) : Int × State :=
  (env.msIn s.msN, { s with msN := s.msN + 1, log := s.log ++ [.timeoutReadMs] })

/-- One call of `timer.read_us()`. -/
@[simps]
def timerReadUs (env : Env) (s : State) : Int × State :=
  (env.usIn s.usN, { s with usN := s.usN + 1, log := s.log ++ [.timerReadUs] })

@[simps]
def tiltGet (env : Env) (s : State) : Int × State :=
  (env.tiltIn s.tiltN, { s with tiltN := s.tiltN + 1, log := s.log ++ [.tiltRead] })

@[simps]
def flameGet (env : Env) (s : State) : Int × State :=
  (env.flameIn s.flameN, { s with flameN := s.flameN + 1, log := s.log ++ [.flameRead] })

@[simps]
def brightnessGet (env : Env) (s : State) : Int × State :=
  (env.brightIn s.brightN, { s with brightN := s.brightN + 1, log := s.log ++ [.brightnessRead] })

@[simps]
def irGet (env : Env) (s : State) : Int × State :=
  (env.irIn s.irN, { s with irN := s.irN + 1, log := s.log ++ [.irRead] })

@[simps]
def led1Set (v : Int) (s : State) : State :=
  { s with led1 := v, log := s.log ++ [.ledWrite 1 v] }

@[simps]
def led2Set (v : Int) (s : State) : State :=
  { s with led2 := v, log := s.log ++ [.ledWrite 2 v] }

@[simps]
def led3Set (v : Int) (s : State) : State :=
  { s with led3 := v, log := s.log ++ [.ledWrite 3 v] }

/-! ## The Ranger: `measure_distance_cm` (main.cpp 33-69) -/

/-- The loop `while (echo == 0) { if (timeout.read_ms() > 25) { ... return -1.0f; } }`
(lines 44-49).  The flag is `true` when the loop was left because `echo` was
not 0, and `false` when the 25 ms test fired (the caller then stops the
timeout timer and returns -1). -/
def waitEchoHigh (env : Env) : Nat → State → Option (Bool × State)
  | 0, _ => none
  | fuel + 1, s =>
    let (e, s1) := echoGet env s
    if e = 0 then
      let (t, s2) := timeoutReadMs env s1
      if t > 25 then some (false, s2) else waitEchoHigh env fuel s2
    else some (true, s1)

/-- The loop `while (echo == 1) { if (timeout.read_ms() > 25) break; }` (lines 58-62). -/
def waitEchoLow (env : Env) : Nat → State → Option State
  | 0, _ => none
  | fuel + 1, s =>
    let (e, s1) := echoGet env s
    if e = 1 then
      let (t, s2) := timeoutReadMs env s1
      if t > 25 then some s2 else waitEchoLow env fuel s2
    else some s1

/-- Body of `float measure_distance_cm()`. -/
def measure_distance_cm (env : Env) (fuel : Nat) (s : State) : Option (ℚ × State) :=
  let s := emit (.call .measure_distance_cm) s
  -- Trigger pulse
  let s := trigSet 0 s
  let s := emit (.waitUs 2) s
  let s := trigSet 1 s
  let s := emit (.waitUs 10) s
  let s := trigSet 0 s
  -- Wait for echo to go HIGH
  let s := emit .timeoutReset s
  let s := emit .timeoutStart s
  match waitEchoHigh env fuel s with
  | none => none
  | some (false, s) =>
    let s := emit .timeoutStop s
    some (-1, s)
  | some (true, s) =>
    let s := emit .timeoutStop s
    -- Measure echo HIGH duration
    let s := emit .timerReset s
    let s := emit .timerStart s
    let s := emit .timeoutReset s
    let s := emit .timeoutStart s
    match waitEchoLow env fuel s with
    | none => none
    | some s =>
      let s := emit .timerStop s
      let s := emit .timeoutStop s
      let (us, s) := timerReadUs env s
      let distance_cm : ℚ := (us : ℚ) / 58
      some (distance_cm, s)

/-! ## Filtered ranging: `get_filtered_distance` (main.cpp 72-85) -/

/-- The `for` loop of lines 75-82, with `n` iterations left; `sum` and `valid`
are the loop-carried locals. -/
def sampleLoop (env : Env) (fuel : Nat) : Nat → ℚ → Int → State → Option (ℚ × Int × State)
  | 0, sum, valid, s => some (sum, valid, s)
  | n + 1, sum, valid, s =>
    match measure_distance_cm env fuel s with
    | none => none
    | some (d, s) =>
      let (sum, valid) := if d > 0 then (sum + d, valid + 1) else (sum, valid)
      let s := emit (.waitMs 60) s
      sampleLoop env fuel n sum valid s

/-- Body of `float get_filtered_distance(int samples = 5)`.  The loop
`for (i = 0; i < samples; i++)` runs `samples` times, and not at all when
`samples ≤ 0`. -/
def get_filtered_distance (env : Env) (fuel : Nat) (samples : Int) (s : State) :
    Option (ℚ × State) :=
  let s := emit (.call .get_filtered_distance) s
  match sampleLoop env fuel samples.toNat 0 0 s with
  | none => none
  | some (sum, valid, s) =>
    if valid = 0 then some (-1, s) else some (sum / (valid : ℚ), s)

/-! ## Binary sensors and LEDs (main.cpp 89-116) -/

/-- Returns true if bright, false if dark. -/
def read_brightness (env : Env) (s : State) : Bool × State :=
  let (v, s) := brightnessGet env s
  (decide (v = 0), s)

/-- Returns true if container is open, false if closed. -/
def is_container_open (env : Env) (s : State) : Bool × State :=
  let (v, s) := tiltGet env s
  (decide (v = 0), s)

def read_ir_detector (env : Env) (s : State) : Bool × State :=
  let (v, s) := irGet env s
  (decide (v = 0), s)

def control_leds (is_dark : Bool) (s : State) : State :=
  if is_dark then
    let s := led1Set 1 s
    let s := led2Set 1 s
    let s := led3Set 1 s
    emit (.print .lightsOn) s
  else
    let s := led1Set 0 s
    let s := led2Set 0 s
    led3Set 0 s

/-! ## The main loop (main.cpp 135-194) -/

/-- Lines 148-152: `h = BIN_HEIGHT_CM - distance`, the two clamps, and the scaling. -/
def fill_percent (distance : ℚ) : ℚ :=
  let h := BIN_HEIGHT_CM - distance
  let h := if h < 0 then 0 else h
  let h := if h > BIN_HEIGHT_CM then BIN_HEIGHT_CM else h
  (h / BIN_HEIGHT_CM) * 100

/-- Conversion `static_cast<int>` of a `float`: truncation toward zero. -/
def truncToInt (x : ℚ) : Int :=
  if 0 ≤ x then ⌊x⌋ else ⌈x⌉

/-- Lines 159-164: the 20-cell bar, cell `i` filled when `i < bars`. -/
def printBar (bars : Int) (s : State) : State :=
  let s := emit (.print .barOpen) s
  let s := (List.range 20).foldl
    (fun (s : State) (i : Nat) => emit (.print (.barCell (decide ((i : Int) < bars)))) s) s
  emit (.print .barClose) s

/-- Lines 139-166 of the loop body: the branch on `container_open`. -/
def report_fill (env : Env) (fuel : Nat) (container_open : Bool) (s : State) : Option State :=
  if container_open then
    some (emit (.print .containerOpenPaused) s)
  else
    -- Measure bin fill (only if container is closed)
    match get_filtered_distance env fuel 5 s with
    | none => none
    | some (distance, s) =>
      if distance < 0 then
        some (emit (.print .noEchoDetected) s)
      else
        let fill := fill_percent distance
        let s := emit (.print (.fillLevel fill)) s
        let bars := truncToInt ((fill / 100) * 20)
        some (printBar bars s)

/-- Lines 168-193 of the loop body: flame, brightness, IR, LEDs, status, delay. -/
def poll_sensors (env : Env) (container_open : Bool) (s : State) : State :=
  -- Check flame sensor
  let (f, s) := flameGet env s
  let s := if f = 0 then emit (.print .alertFlame) s else emit (.print .noFlame) s
  -- Read brightness sensor
  let (is_bright, s) := read_brightness env s
  let s := emit (.print (.light is_bright)) s
  -- Read infrared detector
  let (object_detected, s) := read_ir_detector env s
  let s := emit (.print (.ir object_detected)) s
  -- Control LEDs based on darkness and IR detection
  let s := if object_detected then control_leds (!is_bright) s else s
  -- Display container status
  let s := emit (.print (.containerStatus container_open)) s
  let s := emit (.print .separator) s
  emit (.waitMs 10000) s

/-- One iteration of `while (true)` in `main` (lines 136-193). -/
def loop_cycle (env : Env) (fuel : Nat) (s : State) : Option State :=
  -- Check if container is open first
  let (container_open, s) := is_container_open env s
  match report_fill env fuel container_open s with
  | none => none
  | some s => some (poll_sensors env container_open s)

/-! ## Specification-side notions -/

/-- The raw results of `n` successive Ranger calls made from state `s`, each
followed by the 60 ms settle delay, and the state after them. -/
def rangerResults (env : Env) (fuel : Nat) : Nat → State → Option (List ℚ × State)
  | 0, s => some ([], s)
  | n + 1, s =>
    match measure_distance_cm env fuel s with
    | none => none
    | some (d, s) =>
      match rangerResults env fuel n (emit (.waitMs 60) s) with
      | none => none
      | some (ds, s) => some (d :: ds, s)

/-- Actions that belong to ranging: entering one of the two ranging functions,
driving the trigger line, polling the echo line, any use of the two timers,
and the microsecond and 60 ms delays. -/
def rangingEvent : Event → Bool
  | .call _ => true
  | .trigWrite _ => true
  | .echoRead => true
  | .waitUs _ => true
  | .waitMs n => decide (n = 60)
  | .timeoutReset => true
  | .timeoutStart => true
  | .timeoutStop => true
  | .timeoutReadMs => true
  | .timerReset => true
  | .timerStart => true
  | .timerStop => true
  | .timerReadUs => true
  | _ => false

/-- Uses of the duration timer `timer`. -/
def durationTimerEvent : Event → Bool
  | .timerReset => true
  | .timerStart => true
  | .timerStop => true
  | .timerReadUs => true
  | _ => false

/-- Report lines that carry a fill reading: the percentage and its bar. -/
def fillReport : Event → Bool
  | .print (.fillLevel _) => true
  | .print .barOpen => true
  | .print (.barCell _) => true
  | .print .barClose => true
  | _ => false

/-- State of `measure_distance_cm` on reaching the first wait loop (after lines 35-43). -/
def afterTrigger (s : State) : State :=
  emit .timeoutStart (emit .timeoutReset (trigSet 0 (emit (.waitUs 10) (trigSet 1
    (emit (.waitUs 2) (trigSet 0 (emit (.call .measure_distance_cm) s)))))))

/-- State of `measure_distance_cm` on reaching the second wait loop (after lines 50-57). -/
def afterEchoHigh (s : State) : State :=
  emit .timeoutStart (emit .timeoutReset (emit .timerStart (emit .timerReset
    (emit .timeoutStop s))))

/-- The samples `get_filtered_distance` counts as valid: the strictly positive ones. -/
def validSamples (rs : List ℚ) : List ℚ :=
  rs.filter (fun r => decide (0 < r))

/-- Relation between two states: from `s` to `s'` only ranging happened: the binary
sensor lines were not read, the LEDs were not written, and every action
appended to the log is a ranging action. -/
def RangingOnly (s s' : State) : Prop :=
  s'.tiltN = s.tiltN ∧ s'.flameN = s.flameN ∧ s'.brightN = s.brightN ∧ s'.irN = s.irN
    ∧ s'.led1 = s.led1 ∧ s'.led2 = s.led2 ∧ s'.led3 = s.led3
    ∧ ∃ evs, s'.log = s.log ++ evs ∧ ∀ e ∈ evs, rangingEvent e = true

/-- The timeout clock keeps advancing: after any number of reads, some later
read of `timeout.read_ms()` shows more than 25. -/
def ClockAdvances (env : Env) : Prop :=
  ∀ i, ∃ j, i ≤ j ∧ 25 < env.msIn j

/-! ## Concrete scenarios -/

/-- Power-on state: nothing read yet, all outputs low, empty log. -/
def startState : State :=
  { echoN := 0, msN := 0, usN := 0, tiltN := 0, flameN := 0, brightN := 0, irN := 0,
    trig := 0, led1 := 0, led2 := 0, led3 := 0, log := [] }

/-- A state in which an earlier cycle has switched the three LEDs on. -/
def litState : State :=
  { startState with led1 := 1, led2 := 1, led3 := 1 }

/-- Closed bin in the dark with an object at the IR detector.  Of five Ranger
cycles the first, third and fifth get no echo before the timeout clock shows
26 ms; the second and fourth see an echo-high phase of 2320 µs and 2436 µs. -/
def envMixed : Env :=
  { echoIn := fun k => [0, 1, 1, 0, 0, 1, 1, 0, 0].getD k 0
    msIn := fun k => if k % 2 = 0 then 26 else 5
    usIn := fun k => [2320, 2436].getD k 0
    tiltIn := fun _ => 1
    flameIn := fun _ => 1
    brightIn := fun _ => 1
    irIn := fun _ => 0 }

/-- Closed bin, bright, object at the IR detector, echo line stuck low; the
timeout clock shows 0, 10, 20, 30, ... ms at successive reads. -/
def envSilent : Env :=
  { echoIn := fun _ => 0
    msIn := fun k => 10 * (k : Int)
    usIn := fun _ => 0
    tiltIn := fun _ => 1
    flameIn := fun _ => 1
    brightIn := fun _ => 0
    irIn := fun _ => 0 }

/-- Closed bin, dark, no object at the IR detector, echo line stuck low. -/
def envNoObject : Env :=
  { envSilent with brightIn := fun _ => 1, irIn := fun _ => 1 }

/-- Open bin (tilt line reads 0), flame present, dark, object at the IR detector. -/
def envOpen : Env :=
  { envSilent with tiltIn := fun _ => 0, flameIn := fun _ => 0, brightIn := fun _ => 1 }

/-- Closed bin whose surface touches the sensor: every Ranger cycle sees the
echo line high at the first poll and low at the next, and the duration timer
reads 0 µs. -/
def envTouching : Env :=
  { echoIn := fun k => if k % 2 = 0 then 1 else 0
    msIn := fun _ => 0
    usIn := fun _ => 0
    tiltIn := fun _ => 1
    flameIn := fun _ => 1
    brightIn := fun _ => 0
    irIn := fun _ => 1 }

/-- One Ranger cycle with an echo: the echo line is low for two polls, high for
three, then low; the timeout clock stays below 25 ms and the duration timer
reads 580 µs. -/
def envEcho : Env :=
  { echoIn := fun k => [0, 0, 1, 1, 1, 0].getD k 0
    msIn := fun k => [1, 2, 3, 4].getD k 26
    usIn := fun _ => 580
    tiltIn := fun _ => 1
    flameIn := fun _ => 1
    brightIn := fun _ => 0
    irIn := fun _ => 1 }

/-! ## Fill-level calculator -/

theorem fill_percent_bounds (d : ℚ) : 0 ≤ fill_percent d ∧ fill_percent d ≤ 100 := by
  unfold fill_percent BIN_HEIGHT_CM
  simp only
  split_ifs <;> constructor <;> norm_num at * <;> linarith

/-- C1: for every distance, also above the bin height and below zero, the fill
percentage of lines 148-152 lies in the closed interval from 0 to 100. -/
theorem fill_percent_in_range (d : ℚ) : 0 ≤ fill_percent d ∧ fill_percent d ≤ 100 :=
  fill_percent_bounds d

/-- C2, as stated, fails: the computation does not give 100 at distance 200,
and does not give 0 at distance -10. -/
theorem edge_distances_claim_refuted :
    ¬ (fill_percent 200 = 100 ∧ fill_percent (-10) = 0) := by
  norm_num [fill_percent, BIN_HEIGHT_CM]

/-- C2, amended: with bin height 150 the computation of lines 148-152 gives 0
at distance 200 (the height -50 is clamped to 0) and 100 at distance -10 (the
height 160 is clamped to 150). -/
theorem fill_percent_edges : fill_percent 200 = 0 ∧ fill_percent (-10) = 100 := by
  norm_num [fill_percent, BIN_HEIGHT_CM]

/-- C3: for every distance the fill computation returns the height
`150 - d` clamped into the interval from 0 to 150, divided by 150, times 100;
distance 150 gives 0 and distance 0 gives 100; and for `0 ≤ d ≤ 150` the
result is `(150 - d) / 150 * 100`. -/
theorem fill_percent_formula (d : ℚ) :
    fill_percent d = (min (max (150 - d) 0) 150) / 150 * 100
      ∧ fill_percent 150 = 0
      ∧ fill_percent 0 = 100
      ∧ (0 ≤ d → d ≤ 150 → fill_percent d = (150 - d) / 150 * 100) := by
  refine ⟨?_, by norm_num [fill_percent, BIN_HEIGHT_CM],
    by norm_num [fill_percent, BIN_HEIGHT_CM], ?_⟩
  · unfold fill_percent BIN_HEIGHT_CM
    simp only
    by_cases h1 : (150 : ℚ) - d < 0
    · have h2 : ¬ ((0 : ℚ) > 150) := by norm_num
      rw [if_pos h1, if_neg h2, max_eq_right h1.le, min_eq_left (by norm_num)]
    · rw [if_neg h1, max_eq_left (not_lt.mp h1)]
      by_cases h3 : (150 : ℚ) - d > 150
      · rw [if_pos h3, min_eq_right h3.le]
      · rw [if_neg h3, min_eq_left (not_lt.mp h3)]
  · intro h0 h150
    unfold fill_percent BIN_HEIGHT_CM
    simp only
    have h1 : ¬ ((150 : ℚ) - d < 0) := by linarith
    have h3 : ¬ ((150 : ℚ) - d > 150) := by linarith
    rw [if_neg h1, if_neg h3]

/-- Witness for C3 at distance 75 (half-full bin). -/
theorem fill_percent_formula_witness :
    (0 : ℚ) ≤ 75 ∧ (75 : ℚ) ≤ 150 ∧ fill_percent 75 = (150 - 75) / 150 * 100 :=
  ⟨by norm_num, by norm_num, (fill_percent_formula 75).2.2.2 (by norm_num) (by norm_num)⟩

/-! ## The Ranger -/

theorem waitEchoHigh_succ (env : Env) (f : Nat) (s : State) :
    waitEchoHigh env (f + 1) s =
      if env.echoIn s.echoN = 0 then
        if env.msIn s.msN > 25 then some (false, (timeoutReadMs env (echoGet env s).2).2)
        else waitEchoHigh env f (timeoutReadMs env (echoGet env s).2).2
      else some (true, (echoGet env s).2) := rfl

theorem waitEchoLow_succ (env : Env) (f : Nat) (s : State) :
    waitEchoLow env (f + 1) s =
      if env.echoIn s.echoN = 1 then
        if env.msIn s.msN > 25 then some (timeoutReadMs env (echoGet env s).2).2
        else waitEchoLow env f (timeoutReadMs env (echoGet env s).2).2
      else some (echoGet env s).2 := rfl

/-- When the timeout clock passes 25 ms at its read number `k` and the echo
line reads 0 at every poll made before that, the first wait loop leaves by
its timeout branch, having only polled the echo line and the timeout clock. -/
theorem waitEchoHigh_timeout (env : Env) :
    ∀ (k : Nat) (s : State), 25 < env.msIn (s.msN + k) →
      (∀ j, (∀ i, i < j → env.msIn (s.msN + i) ≤ 25) → env.echoIn (s.echoN + j) = 0) →
      ∀ fuel, k < fuel →
        ∃ s' evs, waitEchoHigh env fuel s = some (false, s') ∧ s'.log = s.log ++ evs
          ∧ (∀ e ∈ evs, e = Event.echoRead ∨ e = Event.timeoutReadMs)
          ∧ s'.usN = s.usN := by
  intro k
  induction k with
  | zero =>
    intro s hclock hecho fuel hfuel
    obtain ⟨f, rfl⟩ : ∃ f, fuel = f + 1 := ⟨fuel - 1, by omega⟩
    have he : env.echoIn s.echoN = 0 := by
      simpa using hecho 0 (fun i hi => absurd hi (Nat.not_lt_zero i))
    have hc : env.msIn s.msN > 25 := by simpa using hclock
    refine ⟨(timeoutReadMs env (echoGet env s).2).2, [Event.echoRead, Event.timeoutReadMs],
      ?_, ?_, ?_, ?_⟩
    · rw [waitEchoHigh_succ, if_pos he, if_pos hc]
    · simp
    · intro e he'
      simpa using he'
    · simp
  | succ k ih =>
    intro s hclock hecho fuel hfuel
    obtain ⟨f, rfl⟩ : ∃ f, fuel = f + 1 := ⟨fuel - 1, by omega⟩
    have he : env.echoIn s.echoN = 0 := by
      simpa using hecho 0 (fun i hi => absurd hi (Nat.not_lt_zero i))
    by_cases hc : env.msIn s.msN > 25
    · refine ⟨(timeoutReadMs env (echoGet env s).2).2, [Event.echoRead, Event.timeoutReadMs],
        ?_, ?_, ?_, ?_⟩
      · rw [waitEchoHigh_succ, if_pos he, if_pos hc]
      · simp
      · intro e he'
        simpa using he'
      · simp
    · have hclock' : 25 < env.msIn ((timeoutReadMs env (echoGet env s).2).2.msN + k) := by
        have : s.msN + 1 + k = s.msN + (k + 1) := by omega
        simpa [this] using hclock
      have hecho' : ∀ j, (∀ i, i < j →
          env.msIn ((timeoutReadMs env (echoGet env s).2).2.msN + i) ≤ 25) →
          env.echoIn ((timeoutReadMs env (echoGet env s).2).2.echoN + j) = 0 := by
        intro j hj
        have h1 : s.echoN + 1 + j = s.echoN + (j + 1) := by omega
        simp only [timeoutReadMs_snd_echoN, echoGet_snd_echoN, h1]
        apply hecho (j + 1)
        intro i hi
        rcases i with _ | i
        · simpa using not_lt.mp hc
        · have h2 := hj i (by omega)
          have h3 : s.msN + 1 + i = s.msN + (i + 1) := by omega
          simpa [h3] using h2
      obtain ⟨s', evs, hrun, hlog, hevs, hus⟩ := ih _ hclock' hecho' f (by omega)
      refine ⟨s', Event.echoRead :: Event.timeoutReadMs :: evs, ?_, ?_, ?_, ?_⟩
      · rw [waitEchoHigh_succ, if_pos he, if_neg hc]
        exact hrun
      · simpa using hlog
      · intro e he'
        simp only [List.mem_cons] at he'
        rcases he' with h | h | h
        · exact Or.inl h
        · exact Or.inr h
        · exact hevs e h
      · simpa using hus

theorem measure_of_timeout (env : Env) (fuel : Nat) (s s1 : State)
    (h : waitEchoHigh env fuel (afterTrigger s) = some (false, s1)) :
    measure_distance_cm env fuel s = some (-1, emit .timeoutStop s1) := by
  unfold measure_distance_cm
  simp only
  unfold afterTrigger at h
  rw [h]

theorem measure_of_echo (env : Env) (fuel : Nat) (s s1 s2 : State)
    (h1 : waitEchoHigh env fuel (afterTrigger s) = some (true, s1))
    (h2 : waitEchoLow env fuel (afterEchoHigh s1) = some s2) :
    measure_distance_cm env fuel s
      = some ((env.usIn s2.usN : ℚ) / 58,
          (timerReadUs env (emit .timeoutStop (emit .timerStop s2))).2) := by
  unfold measure_distance_cm
  simp only
  unfold afterTrigger at h1
  unfold afterEchoHigh at h2
  rw [h1]
  simp only
  rw [h2]
  rfl

/-- C8: if the timeout clock passes 25 ms (at its read number `k` after the
trigger pulse) and the echo line reads 0 at every poll that is preceded only
by clock reads of at most 25 ms, then `measure_distance_cm` returns the
sentinel -1 (with any fuel above `k`), no action it performs uses the
duration timer, and no value of `timer.read_us()` is consumed. -/
theorem measure_distance_no_echo (env : Env) (s : State) (k : Nat)
    (hclock : 25 < env.msIn (s.msN + k))
    (hecho : ∀ j, (∀ i, i < j → env.msIn (s.msN + i) ≤ 25) → env.echoIn (s.echoN + j) = 0)
    (fuel : Nat) (hfuel : k < fuel) :
    ∃ s' evs, measure_distance_cm env fuel s = some (-1, s')
      ∧ s'.log = s.log ++ evs
      ∧ (∀ e ∈ evs, durationTimerEvent e = false)
      ∧ s'.usN = s.usN := by
  have hm : (afterTrigger s).msN = s.msN := by simp [afterTrigger]
  have he : (afterTrigger s).echoN = s.echoN := by simp [afterTrigger]
  obtain ⟨s1, evs, hrun, hlog, hevs, hus⟩ :=
    waitEchoHigh_timeout env k (afterTrigger s) (by rw [hm]; exact hclock)
      (by rw [hm, he]; exact hecho) fuel hfuel
  refine ⟨emit .timeoutStop s1,
    [.call .measure_distance_cm, .trigWrite 0, .waitUs 2, .trigWrite 1, .waitUs 10,
      .trigWrite 0, .timeoutReset, .timeoutStart] ++ evs ++ [.timeoutStop],
    measure_of_timeout env fuel s s1 hrun, ?_, ?_, ?_⟩
  · simp [hlog, afterTrigger]
  · intro e hmem
    simp only [List.mem_append, List.mem_cons, List.mem_singleton, List.not_mem_nil,
      or_false] at hmem
    rcases hmem with (h | h) | h
    · rcases h with h | h | h | h | h | h | h | h <;> subst h <;> rfl
    · rcases hevs e h with h | h <;> subst h <;> rfl
    · subst h; rfl
  · simp [hus, afterTrigger]

/-- When the echo line first reads non-zero at poll `a` and the timeout test
has not fired before, the first wait loop leaves with the echo flag set. -/
theorem waitEchoHigh_active (env : Env) :
    ∀ (a : Nat) (s : State),
      (∀ j, j < a → env.echoIn (s.echoN + j) = 0 ∧ env.msIn (s.msN + j) ≤ 25) →
      env.echoIn (s.echoN + a) ≠ 0 →
      ∀ fuel, a < fuel →
        ∃ s', waitEchoHigh env fuel s = some (true, s') ∧ s'.echoN = s.echoN + a + 1
          ∧ s'.msN = s.msN + a ∧ s'.usN = s.usN := by
  intro a
  induction a with
  | zero =>
    intro s _ hact fuel hfuel
    obtain ⟨f, rfl⟩ : ∃ f, fuel = f + 1 := ⟨fuel - 1, by omega⟩
    refine ⟨(echoGet env s).2, ?_, by simp, by simp, by simp⟩
    rw [waitEchoHigh_succ, if_neg (by simpa using hact)]
  | succ a ih =>
    intro s hquiet hact fuel hfuel
    obtain ⟨f, rfl⟩ : ∃ f, fuel = f + 1 := ⟨fuel - 1, by omega⟩
    have h0 := hquiet 0 (by omega)
    have he : env.echoIn s.echoN = 0 := by simpa using h0.1
    have hc : ¬ env.msIn s.msN > 25 := by simpa using h0.2
    obtain ⟨s', hrun, hE, hM, hU⟩ := ih (timeoutReadMs env (echoGet env s).2).2
      (by
        intro j hj
        have h := hquiet (j + 1) (by omega)
        have h1 : s.echoN + 1 + j = s.echoN + (j + 1) := by omega
        have h2 : s.msN + 1 + j = s.msN + (j + 1) := by omega
        simpa [h1, h2] using h)
      (by
        have h1 : s.echoN + 1 + a = s.echoN + (a + 1) := by omega
        simpa [h1] using hact)
      f (by omega)
    refine ⟨s', ?_, ?_, ?_, ?_⟩
    · rw [waitEchoHigh_succ, if_pos he, if_neg hc]
      exact hrun
    · simp at hE; omega
    · simp at hM; omega
    · simpa using hU

/-- When the echo line reads 1 for `b` polls and then something else, and the
timeout test does not fire in between, the second wait loop ends on the echo
line and leaves the duration timer unread. -/
theorem waitEchoLow_done (env : Env) :
    ∀ (b : Nat) (s : State),
      (∀ j, j < b → env.echoIn (s.echoN + j) = 1 ∧ env.msIn (s.msN + j) ≤ 25) →
      env.echoIn (s.echoN + b) ≠ 1 →
      ∀ fuel, b < fuel →
        ∃ s', waitEchoLow env fuel s = some s' ∧ s'.usN = s.usN := by
  intro b
  induction b with
  | zero =>
    intro s _ hend fuel hfuel
    obtain ⟨f, rfl⟩ : ∃ f, fuel = f + 1 := ⟨fuel - 1, by omega⟩
    refine ⟨(echoGet env s).2, ?_, by simp⟩
    rw [waitEchoLow_succ, if_neg (by simpa using hend)]
  | succ b ih =>
    intro s hhigh hend fuel hfuel
    obtain ⟨f, rfl⟩ : ∃ f, fuel = f + 1 := ⟨fuel - 1, by omega⟩
    have h0 := hhigh 0 (by omega)
    have he : env.echoIn s.echoN = 1 := by simpa using h0.1
    have hc : ¬ env.msIn s.msN > 25 := by simpa using h0.2
    obtain ⟨s', hrun, hU⟩ := ih (timeoutReadMs env (echoGet env s).2).2
      (by
        intro j hj
        have h := hhigh (j + 1) (by omega)
        have h1 : s.echoN + 1 + j = s.echoN + (j + 1) := by omega
        have h2 : s.msN + 1 + j = s.msN + (j + 1) := by omega
        simpa [h1, h2] using h)
      (by
        have h1 : s.echoN + 1 + b = s.echoN + (b + 1) := by omega
        simpa [h1] using hend)
      f (by omega)
    refine ⟨s', ?_, by simpa using hU⟩
    rw [waitEchoLow_succ, if_pos he, if_neg hc]
    exact hrun

/-- C9: when the echo line goes active at poll `a` before the first 25 ms test
fires, then reads 1 for `b` polls and ends before the second 25 ms test
fires, `measure_distance_cm` returns (with any fuel above `a` and `b`) exactly
`w / 58`, where `w` is the value read from the duration timer; for an elapsed
time `w ≥ 0` this is non-negative and so differs from the sentinel -1. -/
theorem measure_distance_echo (env : Env) (s : State) (a b : Nat)
    (hquiet : ∀ j, j < a → env.echoIn (s.echoN + j) = 0 ∧ env.msIn (s.msN + j) ≤ 25)
    (hactive : env.echoIn (s.echoN + a) ≠ 0)
    (hhigh : ∀ j, j < b →
      env.echoIn (s.echoN + a + 1 + j) = 1 ∧ env.msIn (s.msN + a + j) ≤ 25)
    (hend : env.echoIn (s.echoN + a + 1 + b) ≠ 1)
    (fuel : Nat) (hfa : a < fuel) (hfb : b < fuel) :
    ∃ s', measure_distance_cm env fuel s = some ((env.usIn s.usN : ℚ) / 58, s')
      ∧ s'.usN = s.usN + 1
      ∧ (0 ≤ env.usIn s.usN →
          0 ≤ (env.usIn s.usN : ℚ) / 58 ∧ (env.usIn s.usN : ℚ) / 58 ≠ -1) := by
  have hm : (afterTrigger s).msN = s.msN := by simp [afterTrigger]
  have he : (afterTrigger s).echoN = s.echoN := by simp [afterTrigger]
  have hu : (afterTrigger s).usN = s.usN := by simp [afterTrigger]
  obtain ⟨s1, hrun1, hE1, hM1, hU1⟩ :=
    waitEchoHigh_active env a (afterTrigger s) (by rw [hm, he]; exact hquiet)
      (by rw [he]; exact hactive) fuel hfa
  have hm2 : (afterEchoHigh s1).msN = s.msN + a := by simp [afterEchoHigh, hM1, hm]
  have he2 : (afterEchoHigh s1).echoN = s.echoN + a + 1 := by simp [afterEchoHigh, hE1, he]
  have hu2 : (afterEchoHigh s1).usN = s.usN := by simp [afterEchoHigh, hU1, hu]
  obtain ⟨s2, hrun2, hU2⟩ :=
    waitEchoLow_done env b (afterEchoHigh s1) (by rw [hm2, he2]; exact hhigh)
      (by rw [he2]; exact hend) fuel hfb
  have hus : s2.usN = s.usN := by rw [hU2, hu2]
  refine ⟨(timerReadUs env (emit .timeoutStop (emit .timerStop s2))).2, ?_, ?_, ?_⟩
  · rw [measure_of_echo env fuel s s1 s2 hrun1 hrun2, hus]
  · simp [hus]
  · intro hw
    have hq : (0 : ℚ) ≤ (env.usIn s.usN : ℚ) := by exact_mod_cast hw
    have h58 : (0 : ℚ) ≤ (env.usIn s.usN : ℚ) / 58 := div_nonneg hq (by norm_num)
    exact ⟨h58, by linarith⟩

/-! ## Frame of the ranging code -/

theorem measure_eq (env : Env) (fuel : Nat) (s : State) :
    measure_distance_cm env fuel s =
      match waitEchoHigh env fuel (afterTrigger s) with
      | none => none
      | some (false, s1) => some (-1, emit .timeoutStop s1)
      | some (true, s1) =>
        match waitEchoLow env fuel (afterEchoHigh s1) with
        | none => none
        | some s2 =>
          some ((env.usIn s2.usN : ℚ) / 58,
            (timerReadUs env (emit .timeoutStop (emit .timerStop s2))).2) := rfl

theorem RangingOnly.rfl_state (s : State) : RangingOnly s s :=
  ⟨rfl, rfl, rfl, rfl, rfl, rfl, rfl, [], by simp, by simp⟩

theorem RangingOnly.trans {a b c : State} (h1 : RangingOnly a b) (h2 : RangingOnly b c) :
    RangingOnly a c := by
  obtain ⟨t1, f1, b1, i1, l1, l2, l3, evs1, hl1, he1⟩ := h1
  obtain ⟨t2, f2, b2, i2, m1, m2, m3, evs2, hl2, he2⟩ := h2
  refine ⟨t2.trans t1, f2.trans f1, b2.trans b1, i2.trans i1, m1.trans l1, m2.trans l2,
    m3.trans l3, evs1 ++ evs2, by rw [hl2, hl1, List.append_assoc], ?_⟩
  intro e he
  rcases List.mem_append.mp he with h | h
  · exact he1 e h
  · exact he2 e h

theorem rangingOnly_emit (e : Event) (he : rangingEvent e = true) (s : State) :
    RangingOnly s (emit e s) :=
  ⟨rfl, rfl, rfl, rfl, rfl, rfl, rfl, [e], rfl, by simpa using he⟩

theorem rangingOnly_trigSet (v : Int) (s : State) : RangingOnly s (trigSet v s) :=
  ⟨rfl, rfl, rfl, rfl, rfl, rfl, rfl, [.trigWrite v], rfl, by simp [rangingEvent]⟩

theorem rangingOnly_echoGet (env : Env) (s : State) : RangingOnly s (echoGet env s).2 :=
  ⟨rfl, rfl, rfl, rfl, rfl, rfl, rfl, [.echoRead], rfl, by simp [rangingEvent]⟩

theorem rangingOnly_timeoutReadMs (env : Env) (s : State) :
    RangingOnly s (timeoutReadMs env s).2 :=
  ⟨rfl, rfl, rfl, rfl, rfl, rfl, rfl, [.timeoutReadMs], rfl, by simp [rangingEvent]⟩

theorem rangingOnly_timerReadUs (env : Env) (s : State) :
    RangingOnly s (timerReadUs env s).2 :=
  ⟨rfl, rfl, rfl, rfl, rfl, rfl, rfl, [.timerReadUs], rfl, by simp [rangingEvent]⟩

theorem rangingOnly_afterTrigger (s : State) : RangingOnly s (afterTrigger s) := by
  refine ⟨?_, ?_, ?_, ?_, ?_, ?_, ?_,
    [.call .measure_distance_cm, .trigWrite 0, .waitUs 2, .trigWrite 1, .waitUs 10,
      .trigWrite 0, .timeoutReset, .timeoutStart], ?_, ?_⟩ <;>
    simp [afterTrigger, rangingEvent]

theorem rangingOnly_afterEchoHigh (s : State) : RangingOnly s (afterEchoHigh s) := by
  refine ⟨?_, ?_, ?_, ?_, ?_, ?_, ?_,
    [.timeoutStop, .timerReset, .timerStart, .timeoutReset, .timeoutStart], ?_, ?_⟩ <;>
    simp [afterEchoHigh, rangingEvent]

theorem waitEchoHigh_rangingOnly (env : Env) :
    ∀ (fuel : Nat) (s : State) (r : Bool × State),
      waitEchoHigh env fuel s = some r → RangingOnly s r.2 := by
  intro fuel
  induction fuel with
  | zero => intro s r h; simp [waitEchoHigh] at h
  | succ f ih =>
    intro s r h
    rw [waitEchoHigh_succ] at h
    have hstep : RangingOnly s (timeoutReadMs env (echoGet env s).2).2 :=
      (rangingOnly_echoGet env s).trans (rangingOnly_timeoutReadMs env _)
    split_ifs at h with h1 h2
    · cases h; exact hstep
    · exact hstep.trans (ih _ r h)
    · cases h; exact rangingOnly_echoGet env s

theorem waitEchoLow_rangingOnly (env : Env) :
    ∀ (fuel : Nat) (s s' : State), waitEchoLow env fuel s = some s' → RangingOnly s s' := by
  intro fuel
  induction fuel with
  | zero => intro s s' h; simp [waitEchoLow] at h
  | succ f ih =>
    intro s s' h
    rw [waitEchoLow_succ] at h
    have hstep : RangingOnly s (timeoutReadMs env (echoGet env s).2).2 :=
      (rangingOnly_echoGet env s).trans (rangingOnly_timeoutReadMs env _)
    split_ifs at h with h1 h2
    · cases h; exact hstep
    · exact hstep.trans (ih _ s' h)
    · cases h; exact rangingOnly_echoGet env s

theorem measure_rangingOnly (env : Env) (fuel : Nat) (s : State) (r : ℚ × State)
    (h : measure_distance_cm env fuel s = some r) : RangingOnly s r.2 := by
  rw [measure_eq] at h
  cases h1 : waitEchoHigh env fuel (afterTrigger s) with
  | none => rw [h1] at h; cases h
  | some p =>
    obtain ⟨b, s1⟩ := p
    have hr1 : RangingOnly s s1 :=
      (rangingOnly_afterTrigger s).trans (waitEchoHigh_rangingOnly env fuel _ _ h1)
    rw [h1] at h
    cases b with
    | false =>
      simp only [Option.some.injEq] at h
      subst h
      exact hr1.trans (rangingOnly_emit .timeoutStop rfl _)
    | true =>
      simp only at h
      cases h2 : waitEchoLow env fuel (afterEchoHigh s1) with
      | none => rw [h2] at h; cases h
      | some s2 =>
        rw [h2] at h
        simp only [Option.some.injEq] at h
        subst h
        have hr2 : RangingOnly s s2 :=
          (hr1.trans (rangingOnly_afterEchoHigh s1)).trans
            (waitEchoLow_rangingOnly env fuel _ _ h2)
        refine hr2.trans ?_
        refine RangingOnly.trans (rangingOnly_emit .timerStop rfl _) ?_
        refine RangingOnly.trans (rangingOnly_emit .timeoutStop rfl _) ?_
        exact rangingOnly_timerReadUs env _

theorem rangerResults_succ (env : Env) (fuel n : Nat) (s : State) :
    rangerResults env fuel (n + 1) s =
      match measure_distance_cm env fuel s with
      | none => none
      | some (d, s1) =>
        match rangerResults env fuel n (emit (.waitMs 60) s1) with
        | none => none
        | some (ds, s2) => some (d :: ds, s2) := rfl

theorem rangerResults_rangingOnly (env : Env) (fuel : Nat) :
    ∀ (n : Nat) (s : State) (r : List ℚ × State),
      rangerResults env fuel n s = some r → RangingOnly s r.2 ∧ r.1.length = n := by
  intro n
  induction n with
  | zero =>
    intro s r h
    simp only [rangerResults, Option.some.injEq] at h
    subst h
    exact ⟨RangingOnly.rfl_state s, rfl⟩
  | succ n ih =>
    intro s r h
    rw [rangerResults_succ] at h
    cases h1 : measure_distance_cm env fuel s with
    | none => rw [h1] at h; cases h
    | some p =>
      obtain ⟨d, s1⟩ := p
      rw [h1] at h
      simp only at h
      cases h2 : rangerResults env fuel n (emit (.waitMs 60) s1) with
      | none => rw [h2] at h; cases h
      | some q =>
        obtain ⟨ds, s2⟩ := q
        rw [h2] at h
        simp only [Option.some.injEq] at h
        subst h
        obtain ⟨hr, hl⟩ := ih _ _ h2
        refine ⟨?_, by simp [hl]⟩
        exact ((measure_rangingOnly env fuel s _ h1).trans
          (rangingOnly_emit (.waitMs 60) rfl _)).trans hr

/-! ## Filtered ranging -/

theorem validSamples_cons (d : ℚ) (ds : List ℚ) :
    validSamples (d :: ds) = if 0 < d then d :: validSamples ds else validSamples ds := by
  unfold validSamples
  by_cases h : 0 < d <;> simp [List.filter_cons, h]

/-- The sample loop adds to `sum` the strictly positive raw results and to
`valid` their number. -/
theorem sampleLoop_eq (env : Env) (fuel : Nat) :
    ∀ (n : Nat) (sum : ℚ) (valid : Int) (s : State),
      sampleLoop env fuel n sum valid s =
        match rangerResults env fuel n s with
        | none => none
        | some (rs, s') =>
          some (sum + (validSamples rs).sum, valid + ((validSamples rs).length : Int), s') := by
  intro n
  induction n with
  | zero =>
    intro sum valid s
    simp [sampleLoop, rangerResults, validSamples]
  | succ n ih =>
    intro sum valid s
    rw [rangerResults_succ]
    unfold sampleLoop
    cases h1 : measure_distance_cm env fuel s with
    | none => rfl
    | some p =>
      obtain ⟨d, s1⟩ := p
      simp only
      by_cases hd : d > 0
      · rw [if_pos hd]
        simp only
        rw [ih]
        cases h2 : rangerResults env fuel n (emit (.waitMs 60) s1) with
        | none => rfl
        | some q =>
          obtain ⟨ds, s2⟩ := q
          simp only [validSamples_cons, if_pos (show 0 < d from hd), List.sum_cons,
            List.length_cons, Nat.cast_add, Nat.cast_one]
          congr 2
          · ring
          · congr 1
            ring
      · rw [if_neg hd]
        simp only
        rw [ih]
        cases h2 : rangerResults env fuel n (emit (.waitMs 60) s1) with
        | none => rfl
        | some q =>
          obtain ⟨ds, s2⟩ := q
          simp only [validSamples_cons, if_neg (show ¬ 0 < d from hd)]

theorem get_filtered_distance_eq (env : Env) (fuel : Nat) (samples : Int) (s : State) :
    get_filtered_distance env fuel samples s =
      match rangerResults env fuel samples.toNat (emit (.call .get_filtered_distance) s) with
      | none => none
      | some (rs, s') =>
        some (if (validSamples rs).length = 0 then -1
              else (validSamples rs).sum / ((validSamples rs).length : ℚ), s') := by
  unfold get_filtered_distance
  simp only
  rw [sampleLoop_eq]
  cases h : rangerResults env fuel samples.toNat (emit (.call .get_filtered_distance) s) with
  | none => rfl
  | some q =>
    obtain ⟨rs, s'⟩ := q
    simp only [zero_add]
    by_cases hv : (validSamples rs).length = 0
    · simp [hv]
    · have hv' : ((validSamples rs).length : Int) ≠ 0 := by exact_mod_cast hv
      rw [if_neg hv', if_neg hv]
      simp

theorem validSamples_pos (rs : List ℚ) : ∀ r ∈ validSamples rs, 0 < r := by
  intro r hr
  unfold validSamples at hr
  simpa using (List.mem_filter.mp hr).2

theorem sum_pos_of_pos : ∀ (l : List ℚ), (∀ r ∈ l, 0 < r) → l ≠ [] → 0 < l.sum := by
  intro l
  induction l with
  | nil => intro _ h; exact absurd rfl h
  | cons a l ih =>
    intro hpos _
    rw [List.sum_cons]
    have ha : 0 < a := hpos a (List.mem_cons_self a l)
    by_cases hl : l = []
    · subst hl; simpa using ha
    · have := ih (fun r hr => hpos r (List.mem_cons_of_mem a hr)) hl
      linarith

/-- The filtered value computed from raw results `rs` is the sentinel or is
strictly positive. -/
theorem filtered_value_sign (rs : List ℚ) :
    (if (validSamples rs).length = 0 then (-1 : ℚ)
      else (validSamples rs).sum / ((validSamples rs).length : ℚ)) = -1
    ∨ 0 < (if (validSamples rs).length = 0 then (-1 : ℚ)
      else (validSamples rs).sum / ((validSamples rs).length : ℚ)) := by
  by_cases hv : (validSamples rs).length = 0
  · left; rw [if_pos hv]
  · right
    rw [if_neg hv]
    have hne : validSamples rs ≠ [] := fun h => hv (by rw [h]; rfl)
    have hs := sum_pos_of_pos _ (validSamples_pos rs) hne
    have hl : (0 : ℚ) < ((validSamples rs).length : ℚ) := by
      exact_mod_cast Nat.pos_of_ne_zero hv
    exact div_pos hs hl

/-! ## Fuel: more is harmless, and an advancing clock makes some amount enough -/

theorem waitEchoHigh_mono (env : Env) :
    ∀ (f : Nat) (s : State) (r : Bool × State), waitEchoHigh env f s = some r →
      ∀ f', f ≤ f' → waitEchoHigh env f' s = some r := by
  intro f
  induction f with
  | zero => intro s r h; simp [waitEchoHigh] at h
  | succ f ih =>
    intro s r h f' hf
    obtain ⟨g, rfl⟩ : ∃ g, f' = g + 1 := ⟨f' - 1, by omega⟩
    rw [waitEchoHigh_succ] at h ⊢
    split_ifs at h ⊢ with h1 h2
    · exact h
    · exact ih _ r h g (by omega)
    · exact h

theorem waitEchoLow_mono (env : Env) :
    ∀ (f : Nat) (s s' : State), waitEchoLow env f s = some s' →
      ∀ f', f ≤ f' → waitEchoLow env f' s = some s' := by
  intro f
  induction f with
  | zero => intro s s' h; simp [waitEchoLow] at h
  | succ f ih =>
    intro s s' h f' hf
    obtain ⟨g, rfl⟩ : ∃ g, f' = g + 1 := ⟨f' - 1, by omega⟩
    rw [waitEchoLow_succ] at h ⊢
    split_ifs at h ⊢ with h1 h2
    · exact h
    · exact ih _ s' h g (by omega)
    · exact h

theorem measure_mono (env : Env) (f : Nat) (s : State) (r : ℚ × State)
    (h : measure_distance_cm env f s = some r) (f' : Nat) (hf : f ≤ f') :
    measure_distance_cm env f' s = some r := by
  rw [measure_eq] at h ⊢
  cases h1 : waitEchoHigh env f (afterTrigger s) with
  | none => rw [h1] at h; cases h
  | some p =>
    obtain ⟨b, s1⟩ := p
    rw [h1] at h
    rw [waitEchoHigh_mono env f _ _ h1 f' hf]
    cases b with
    | false => exact h
    | true =>
      simp only at h ⊢
      cases h2 : waitEchoLow env f (afterEchoHigh s1) with
      | none => rw [h2] at h; cases h
      | some s2 =>
        rw [h2] at h
        rw [waitEchoLow_mono env f _ _ h2 f' hf]
        exact h

theorem rangerResults_mono (env : Env) (f : Nat) :
    ∀ (n : Nat) (s : State) (r : List ℚ × State), rangerResults env f n s = some r →
      ∀ f', f ≤ f' → rangerResults env f' n s = some r := by
  intro n
  induction n with
  | zero => intro s r h f' _; simpa [rangerResults] using h
  | succ n ih =>
    intro s r h f' hf
    rw [rangerResults_succ] at h ⊢
    cases h1 : measure_distance_cm env f s with
    | none => rw [h1] at h; cases h
    | some p =>
      obtain ⟨d, s1⟩ := p
      rw [h1] at h
      rw [measure_mono env f s _ h1 f' hf]
      simp only at h ⊢
      cases h2 : rangerResults env f n (emit (.waitMs 60) s1) with
      | none => rw [h2] at h; cases h
      | some q =>
        rw [h2] at h
        rw [ih _ _ h2 f' hf]
        exact h

theorem waitEchoHigh_terminates (env : Env) :
    ∀ (d : Nat) (s : State), 25 < env.msIn (s.msN + d) →
      ∃ f r, waitEchoHigh env f s = some r := by
  intro d
  induction d with
  | zero =>
    intro s hc
    refine ⟨1, ?_⟩
    rw [waitEchoHigh_succ]
    have hc' : env.msIn s.msN > 25 := by simpa using hc
    split_ifs <;> exact ⟨_, rfl⟩
  | succ d ih =>
    intro s hc
    by_cases h1 : env.echoIn s.echoN = 0
    · by_cases h2 : env.msIn s.msN > 25
      · exact ⟨1, _, by rw [waitEchoHigh_succ, if_pos h1, if_pos h2]⟩
      · obtain ⟨f, r, hr⟩ := ih (timeoutReadMs env (echoGet env s).2).2 (by
          have : s.msN + 1 + d = s.msN + (d + 1) := by omega
          simpa [this] using hc)
        exact ⟨f + 1, r, by rw [waitEchoHigh_succ, if_pos h1, if_neg h2]; exact hr⟩
    · exact ⟨1, _, by rw [waitEchoHigh_succ, if_neg h1]⟩

theorem waitEchoLow_terminates (env : Env) :
    ∀ (d : Nat) (s : State), 25 < env.msIn (s.msN + d) →
      ∃ f s', waitEchoLow env f s = some s' := by
  intro d
  induction d with
  | zero =>
    intro s hc
    refine ⟨1, ?_⟩
    rw [waitEchoLow_succ]
    have hc' : env.msIn s.msN > 25 := by simpa using hc
    split_ifs <;> exact ⟨_, rfl⟩
  | succ d ih =>
    intro s hc
    by_cases h1 : env.echoIn s.echoN = 1
    · by_cases h2 : env.msIn s.msN > 25
      · exact ⟨1, _, by rw [waitEchoLow_succ, if_pos h1, if_pos h2]⟩
      · obtain ⟨f, r, hr⟩ := ih (timeoutReadMs env (echoGet env s).2).2 (by
          have : s.msN + 1 + d = s.msN + (d + 1) := by omega
          simpa [this] using hc)
        exact ⟨f + 1, r, by rw [waitEchoLow_succ, if_pos h1, if_neg h2]; exact hr⟩
    · exact ⟨1, _, by rw [waitEchoLow_succ, if_neg h1]⟩

theorem clock_reaches (env : Env) (hclk : ClockAdvances env) (s : State) :
    ∃ d, 25 < env.msIn (s.msN + d) := by
  obtain ⟨j, hj, hc⟩ := hclk s.msN
  exact ⟨j - s.msN, by rw [Nat.add_sub_cancel' hj]; exact hc⟩

theorem measure_terminates (env : Env) (hclk : ClockAdvances env) (s : State) :
    ∃ f r, measure_distance_cm env f s = some r := by
  obtain ⟨d1, hd1⟩ := clock_reaches env hclk (afterTrigger s)
  obtain ⟨f1, ⟨b, s1⟩, h1⟩ := waitEchoHigh_terminates env d1 _ hd1
  cases b with
  | false =>
    exact ⟨f1, _, by rw [measure_eq, h1]⟩
  | true =>
    obtain ⟨d2, hd2⟩ := clock_reaches env hclk (afterEchoHigh s1)
    obtain ⟨f2, s2, h2⟩ := waitEchoLow_terminates env d2 _ hd2
    refine ⟨max f1 f2, ((env.usIn s2.usN : ℚ) / 58,
      (timerReadUs env (emit .timeoutStop (emit .timerStop s2))).2), ?_⟩
    rw [measure_eq, waitEchoHigh_mono env f1 _ _ h1 _ (le_max_left f1 f2)]
    simp only
    rw [waitEchoLow_mono env f2 _ _ h2 _ (le_max_right f1 f2)]

theorem rangerResults_terminates (env : Env) (hclk : ClockAdvances env) :
    ∀ (n : Nat) (s : State), ∃ f r, rangerResults env f n s = some r := by
  intro n
  induction n with
  | zero => intro s; exact ⟨0, _, rfl⟩
  | succ n ih =>
    intro s
    obtain ⟨f1, ⟨d, s1⟩, h1⟩ := measure_terminates env hclk s
    obtain ⟨f2, ⟨ds, s2⟩, h2⟩ := ih (emit (.waitMs 60) s1)
    refine ⟨max f1 f2, (d :: ds, s2), ?_⟩
    rw [rangerResults_succ, measure_mono env f1 s _ h1 _ (le_max_left f1 f2)]
    simp only
    rw [rangerResults_mono env f2 n _ _ h2 _ (le_max_right f1 f2)]

theorem get_filtered_distance_terminates (env : Env) (hclk : ClockAdvances env)
    (samples : Int) (s : State) :
    ∃ f r, get_filtered_distance env f samples s = some r := by
  obtain ⟨f, ⟨rs, s'⟩, h⟩ := rangerResults_terminates env hclk samples.toNat
    (emit (.call .get_filtered_distance) s)
  exact ⟨f, _, by rw [get_filtered_distance_eq, h]⟩

theorem report_fill_terminates (env : Env) (hclk : ClockAdvances env)
    (container_open : Bool) (s : State) :
    ∃ f s', report_fill env f container_open s = some s' := by
  cases container_open with
  | true => exact ⟨0, _, rfl⟩
  | false =>
    obtain ⟨f, ⟨d, s1⟩, h⟩ := get_filtered_distance_terminates env hclk 5 s
    refine ⟨f, ?_⟩
    unfold report_fill
    simp only [Bool.false_eq_true, if_false]
    rw [h]
    simp only
    split_ifs <;> exact ⟨_, rfl⟩

/-- With an advancing timeout clock, a loop cycle completes once the fuel is
large enough. -/
theorem loop_cycle_terminates (env : Env) (hclk : ClockAdvances env) (s : State) :
    ∃ f s', loop_cycle env f s = some s' := by
  obtain ⟨f, s1, h⟩ := report_fill_terminates env hclk (is_container_open env s).1
    (is_container_open env s).2
  refine ⟨f, poll_sensors env (is_container_open env s).1 s1, ?_⟩
  unfold loop_cycle
  simp only
  rw [h]

/-! ## The loop body -/

theorem poll_sensors_leds_keep (env : Env) (o : Bool) (s : State) (hir : env.irIn s.irN ≠ 0) :
    (poll_sensors env o s).led1 = s.led1 ∧ (poll_sensors env o s).led2 = s.led2
      ∧ (poll_sensors env o s).led3 = s.led3 := by
  by_cases hf : env.flameIn s.flameN = 0 <;>
    simp [poll_sensors, read_brightness, read_ir_detector, hf, hir]

theorem poll_sensors_leds_set (env : Env) (o : Bool) (s : State) (hir : env.irIn s.irN = 0) :
    (env.brightIn s.brightN ≠ 0 →
      (poll_sensors env o s).led1 = 1 ∧ (poll_sensors env o s).led2 = 1
        ∧ (poll_sensors env o s).led3 = 1)
    ∧ (env.brightIn s.brightN = 0 →
      (poll_sensors env o s).led1 = 0 ∧ (poll_sensors env o s).led2 = 0
        ∧ (poll_sensors env o s).led3 = 0) := by
  constructor <;> intro hb <;> by_cases hf : env.flameIn s.flameN = 0 <;>
    simp [poll_sensors, read_brightness, read_ir_detector, control_leds, hf, hir, hb]

theorem poll_sensors_effect (env : Env) (o : Bool) (s : State) :
    ∃ evs, (poll_sensors env o s).log = s.log ++ evs
      ∧ (∀ e ∈ evs, rangingEvent e = false ∧ fillReport e = false)
      ∧ (poll_sensors env o s).trig = s.trig ∧ (poll_sensors env o s).echoN = s.echoN
      ∧ (poll_sensors env o s).msN = s.msN ∧ (poll_sensors env o s).usN = s.usN := by
  by_cases hf : env.flameIn s.flameN = 0 <;> by_cases hb : env.brightIn s.brightN = 0 <;>
    by_cases hi : env.irIn s.irN = 0 <;>
    simp [poll_sensors, read_brightness, read_ir_detector, control_leds, hf, hb, hi,
      rangingEvent, fillReport]

theorem foldl_emit (g : Nat → Event) :
    ∀ (l : List Nat) (s : State),
      l.foldl (fun s i => emit (g i) s) s = { s with log := s.log ++ l.map g } := by
  intro l
  induction l with
  | nil => intro s; simp
  | cons a l ih =>
    intro s
    rw [List.foldl_cons, ih]
    simp [emit]

theorem printBar_eq (bars : Int) (s : State) :
    printBar bars s = { s with log := s.log ++ (Event.print .barOpen ::
      ((List.range 20).map (fun (i : Nat) => Event.print (.barCell (decide ((i : Int) < bars))))
        ++ [Event.print .barClose])) } := by
  unfold printBar
  simp only
  rw [foldl_emit (fun (i : Nat) => Event.print (.barCell (decide ((i : Int) < bars))))]
  simp [emit]

/-- Effect of the branch on `container_open` when the container is closed and
filtered ranging returned `d`. -/
theorem report_fill_closed (env : Env) (fuel : Nat) (s s1 : State) (d : ℚ)
    (hg : get_filtered_distance env fuel 5 s = some (d, s1)) :
    report_fill env fuel false s =
      some (if d < 0 then emit (.print .noEchoDetected) s1
        else printBar (truncToInt ((fill_percent d / 100) * 20))
          (emit (.print (.fillLevel (fill_percent d))) s1)) := by
  unfold report_fill
  simp only [Bool.false_eq_true, if_false]
  rw [hg]
  simp only
  split_ifs <;> rfl

theorem get_filtered_distance_rangingOnly (env : Env) (fuel : Nat) (samples : Int)
    (s s1 : State) (d : ℚ) (hg : get_filtered_distance env fuel samples s = some (d, s1)) :
    RangingOnly s s1 ∧ (d = -1 ∨ 0 < d) := by
  rw [get_filtered_distance_eq] at hg
  cases h : rangerResults env fuel samples.toNat (emit (.call .get_filtered_distance) s) with
  | none => rw [h] at hg; cases hg
  | some q =>
    obtain ⟨rs, s'⟩ := q
    rw [h] at hg
    simp only [Option.some.injEq, Prod.mk.injEq] at hg
    obtain ⟨hd, hs⟩ := hg
    subst hs
    refine ⟨(rangingOnly_emit (.call .get_filtered_distance) rfl s).trans
      (rangerResults_rangingOnly env fuel _ _ _ h).1, ?_⟩
    rw [← hd]
    exact filtered_value_sign rs

/-- What the branch on `container_open` leaves untouched, and what it reports. -/
theorem report_fill_frame (env : Env) (fuel : Nat) (o : Bool) (s s1 : State)
    (h : report_fill env fuel o s = some s1) :
    s1.irN = s.irN ∧ s1.brightN = s.brightN ∧ s1.led1 = s.led1 ∧ s1.led2 = s.led2
      ∧ s1.led3 = s.led3
      ∧ ∃ evs, s1.log = s.log ++ evs
          ∧ ∀ p, Event.print (.fillLevel p) ∈ evs → 0 ≤ p ∧ p < 100 := by
  cases o with
  | true =>
    simp only [report_fill, if_true, Option.some.injEq] at h
    subst h
    refine ⟨rfl, rfl, rfl, rfl, rfl, [.print .containerOpenPaused], rfl, ?_⟩
    intro p hp
    simp at hp
  | false =>
    cases hg : get_filtered_distance env fuel 5 s with
    | none => simp [report_fill, hg] at h
    | some q =>
      obtain ⟨d, s2⟩ := q
      rw [report_fill_closed env fuel s s2 d hg] at h
      obtain ⟨⟨_, _, hb, hi, l1, l2, l3, evs, hlog, hev⟩, hsign⟩ :=
        get_filtered_distance_rangingOnly env fuel 5 s s2 d hg
      have hnoprint : ∀ p, Event.print (.fillLevel p) ∉ evs := by
        intro p hp
        have := hev _ hp
        simp [rangingEvent] at this
      by_cases hd : d < 0
      · rw [if_pos hd] at h
        simp only [Option.some.injEq] at h
        subst h
        refine ⟨hi, hb, l1, l2, l3, evs ++ [.print .noEchoDetected], by simp [hlog], ?_⟩
        intro p hp
        simp only [List.mem_append, List.mem_singleton] at hp
        rcases hp with hp | hp
        · exact absurd hp (hnoprint p)
        · cases hp
      · rw [if_neg hd] at h
        simp only [Option.some.injEq] at h
        subst h
        rw [printBar_eq]
        refine ⟨hi, hb, l1, l2, l3,
          evs ++ (Event.print (.fillLevel (fill_percent d)) :: Event.print .barOpen ::
            ((List.range 20).map (fun (i : Nat) => Event.print (.barCell (decide ((i : Int) <
              truncToInt ((fill_percent d / 100) * 20))))) ++ [Event.print .barClose])),
          by simp [hlog], ?_⟩
        intro p hp
        simp only [List.mem_append] at hp
        have hdpos : 0 < d := by
          rcases hsign with h1 | h1
          · exact absurd (by rw [h1]; norm_num) hd
          · exact h1
        have hp' : p = fill_percent d := by
          rcases hp with hp | hp
          · exact absurd hp (hnoprint p)
          · simpa using hp
        subst hp'
        refine ⟨(fill_percent_bounds d).1, ?_⟩
        unfold fill_percent BIN_HEIGHT_CM
        simp only
        split_ifs <;> norm_num at * <;> linarith

theorem loop_cycle_eq (env : Env) (fuel : Nat) (s : State) :
    loop_cycle env fuel s =
      match report_fill env fuel (decide (env.tiltIn s.tiltN = 0)) (tiltGet env s).2 with
      | none => none
      | some s1 => some (poll_sensors env (decide (env.tiltIn s.tiltN = 0)) s1) := rfl

/-! ## Claims about filtered ranging -/

/-- C4: for every sample count and every list `rs` of raw results that the
Ranger returns to the sample loop, `get_filtered_distance` returns the
sentinel -1 when no result is strictly positive, and otherwise the sum of the
strictly positive results divided by their number. -/
theorem filtered_distance_mean (env : Env) (fuel : Nat) (samples : Int) (s : State)
    (rs : List ℚ) (s' : State)
    (h : rangerResults env fuel samples.toNat (emit (.call .get_filtered_distance) s)
      = some (rs, s')) :
    rs.length = samples.toNat
      ∧ ∃ v, get_filtered_distance env fuel samples s = some (v, s')
        ∧ ((∀ r ∈ rs, ¬ 0 < r) → v = -1)
        ∧ ((∃ r ∈ rs, 0 < r) →
            v = (validSamples rs).sum / ((validSamples rs).length : ℚ)) := by
  refine ⟨(rangerResults_rangingOnly env fuel _ _ _ h).2,
    (if (validSamples rs).length = 0 then -1
      else (validSamples rs).sum / ((validSamples rs).length : ℚ)), ?_, ?_, ?_⟩
  · rw [get_filtered_distance_eq, h]
  · intro hnone
    have : validSamples rs = [] := by
      unfold validSamples
      rw [List.filter_eq_nil_iff]
      intro r hr
      simpa using hnone r hr
    simp [this]
  · rintro ⟨r, hr, hpos⟩
    have hmem : r ∈ validSamples rs := by
      unfold validSamples
      exact List.mem_filter.mpr ⟨hr, by simpa using hpos⟩
    have hne : (validSamples rs).length ≠ 0 := by
      intro h0
      rw [List.length_eq_zero] at h0
      rw [h0] at hmem
      cases hmem
    rw [if_neg hne]

/-- Witness for C4: raw results -1, 40, -1, 42, -1 give 41. -/
theorem filtered_distance_mean_witness :
    ∃ s', rangerResults envMixed 3 5 (emit (.call .get_filtered_distance) startState)
        = some ([-1, 40, -1, 42, -1], s')
      ∧ get_filtered_distance envMixed 3 5 startState = some (41, s') := by
  have hraw : (rangerResults envMixed 3 5
      (emit (.call .get_filtered_distance) startState)).map Prod.fst
      = some [-1, 40, -1, 42, -1] := by
    simp [rangerResults, measure_distance_cm, waitEchoHigh, waitEchoLow, envMixed, startState]
    norm_num
  obtain ⟨⟨rs, s'⟩, hr, hfst⟩ := Option.map_eq_some'.mp hraw
  simp only at hfst
  subst hfst
  obtain ⟨_, v, hv, _, hpos⟩ := filtered_distance_mean envMixed 3 5 startState _ s' hr
  have h41 : v = 41 := by
    rw [hpos ⟨40, by simp, by norm_num⟩]
    norm_num [validSamples]
  exact ⟨s', hr, by rw [hv, h41]⟩

/-- C10: `get_filtered_distance` returns exactly -1 or a strictly positive
value; so every fill percentage a loop cycle reports is below 100, the upper
clamp `h > BIN_HEIGHT_CM` is not taken for any value that reaches it, and a
cycle whose five raw distances are all 0 reports no echo, not a full bin. -/
theorem filtered_distance_never_zero :
    (∀ (env : Env) (fuel : Nat) (samples : Int) (s s' : State) (d : ℚ),
        get_filtered_distance env fuel samples s = some (d, s') → d = -1 ∨ 0 < d)
    ∧ (∀ (env : Env) (fuel : Nat) (s s' : State), loop_cycle env fuel s = some s' →
        ∃ evs, s'.log = s.log ++ evs
          ∧ ∀ p, Event.print (.fillLevel p) ∈ evs → 0 ≤ p ∧ p < 100)
    ∧ (∀ (env : Env) (fuel : Nat) (samples : Int) (s s' : State) (d : ℚ),
        get_filtered_distance env fuel samples s = some (d, s') → ¬ d < 0 →
          ¬ ((if BIN_HEIGHT_CM - d < 0 then 0 else BIN_HEIGHT_CM - d) > BIN_HEIGHT_CM))
    ∧ (∀ (env : Env) (fuel : Nat) (s s1 : State) (rs : List ℚ),
        env.tiltIn s.tiltN ≠ 0 →
        rangerResults env fuel 5 (emit (.call .get_filtered_distance) (tiltGet env s).2)
          = some (rs, s1) →
        (∀ r ∈ rs, r = 0) →
          get_filtered_distance env fuel 5 (tiltGet env s).2 = some (-1, s1)
          ∧ loop_cycle env fuel s
              = some (poll_sensors env false (emit (.print .noEchoDetected) s1))) := by
  refine ⟨?_, ?_, ?_, ?_⟩
  · intro env fuel samples s s' d h
    exact (get_filtered_distance_rangingOnly env fuel samples s s' d h).2
  · intro env fuel s s' h
    rw [loop_cycle_eq] at h
    cases hr : report_fill env fuel (decide (env.tiltIn s.tiltN = 0)) (tiltGet env s).2 with
    | none => rw [hr] at h; cases h
    | some s1 =>
      rw [hr] at h
      simp only [Option.some.injEq] at h
      subst h
      obtain ⟨_, _, _, _, _, evs1, hlog1, hfill⟩ := report_fill_frame env fuel _ _ _ hr
      obtain ⟨evs2, hlog2, hev2, _⟩ :=
        poll_sensors_effect env (decide (env.tiltIn s.tiltN = 0)) s1
      refine ⟨[.tiltRead] ++ evs1 ++ evs2, by simp [hlog2, hlog1], ?_⟩
      intro p hp
      simp only [List.mem_append, List.mem_singleton] at hp
      rcases hp with (hp | hp) | hp
      · cases hp
      · exact hfill p hp
      · have := (hev2 _ hp).2
        simp [fillReport] at this
  · intro env fuel samples s s' d h hd
    have hpos : 0 < d := by
      rcases (get_filtered_distance_rangingOnly env fuel samples s s' d h).2 with h1 | h1
      · exact absurd (by rw [h1]; norm_num) hd
      · exact h1
    unfold BIN_HEIGHT_CM
    split_ifs
    · norm_num
    · linarith
  · intro env fuel s s1 rs htilt hr hzero
    have hvalid : validSamples rs = [] := by
      unfold validSamples
      rw [List.filter_eq_nil_iff]
      intro r hr'
      simp [hzero r hr']
    have hg : get_filtered_distance env fuel 5 (tiltGet env s).2 = some (-1, s1) := by
      rw [get_filtered_distance_eq]
      have h5 : (5 : Int).toNat = 5 := rfl
      rw [h5, hr]
      simp [hvalid]
    refine ⟨hg, ?_⟩
    rw [loop_cycle_eq]
    have ht : decide (env.tiltIn s.tiltN = 0) = false := by simpa using htilt
    rw [ht, report_fill_closed env fuel _ s1 (-1) hg]
    simp

/-- Witness for C10: with the surface at the sensor all five raw distances
are 0, the filtered distance is -1 and the cycle reports no echo. -/
theorem filtered_distance_never_zero_witness :
    ∃ s1, rangerResults envTouching 1 5
        (emit (.call .get_filtered_distance) (tiltGet envTouching startState).2)
        = some ([0, 0, 0, 0, 0], s1)
      ∧ get_filtered_distance envTouching 1 5 (tiltGet envTouching startState).2
        = some (-1, s1)
      ∧ loop_cycle envTouching 1 startState
        = some (poll_sensors envTouching false (emit (.print .noEchoDetected) s1)) := by
  have hraw : (rangerResults envTouching 1 5
      (emit (.call .get_filtered_distance) (tiltGet envTouching startState).2)).map Prod.fst
      = some [0, 0, 0, 0, 0] := by
    simp [rangerResults, measure_distance_cm, waitEchoHigh, waitEchoLow, envTouching,
      startState]
  obtain ⟨⟨rs, s1⟩, hr, hfst⟩ := Option.map_eq_some'.mp hraw
  simp only at hfst
  subst hfst
  exact ⟨s1, hr, filtered_distance_never_zero.2.2.2 envTouching 1 startState s1 _
    (by decide) hr (by simp)⟩

/-! ## Claims about the Ranger: concrete runs -/

/-- Witness for C8: the echo line stays low and the timeout clock reads 0, 10,
20, 30 ms; the fourth read trips the test and the call returns -1. -/
theorem measure_distance_no_echo_witness :
    25 < envSilent.msIn (startState.msN + 3)
      ∧ ∃ s' evs, measure_distance_cm envSilent 4 startState = some (-1, s')
          ∧ s'.log = startState.log ++ evs
          ∧ (∀ e ∈ evs, durationTimerEvent e = false)
          ∧ s'.usN = startState.usN :=
  ⟨by decide,
    measure_distance_no_echo envSilent startState 3 (by decide) (fun _ _ => rfl) 4 (by decide)⟩

/-- Witness for C9: an echo-high phase read as 580 µs gives 10 cm. -/
theorem measure_distance_echo_witness :
    envEcho.usIn startState.usN = 580
      ∧ ∃ s', measure_distance_cm envEcho 3 startState = some (10, s')
          ∧ s'.usN = 1 ∧ (0 : ℚ) ≤ 10 ∧ (10 : ℚ) ≠ -1 := by
  obtain ⟨s', hrun, hus, hsign⟩ :=
    measure_distance_echo envEcho startState 2 2 (by decide) (by decide) (by decide)
      (by decide) 3 (by decide) (by decide)
  have hw : ((envEcho.usIn startState.usN : Int) : ℚ) / 58 = 10 := by
    show (((580 : Int) : ℚ)) / 58 = 10
    norm_num
  rw [hw] at hrun hsign
  have h := hsign (by decide)
  exact ⟨rfl, s', hrun, by simpa [startState] using hus, h.1, h.2⟩

/-! ## Claims about the loop cycle -/

/-- C7: in a cycle whose tilt read gives 0 (container open) the cycle completes
with any fuel, none of its actions is a ranging action (no entry into
`get_filtered_distance` or `measure_distance_cm`, no write to the trigger
line, no echo poll, no timer use), the trigger level and the read positions of
the echo line and both timers are unchanged, and the report has the line
"measurements paused" and no fill reading. -/
theorem open_container_skips_ranging (env : Env) (fuel : Nat) (s : State)
    (hopen : env.tiltIn s.tiltN = 0) :
    ∃ s' evs, loop_cycle env fuel s = some s' ∧ s'.log = s.log ++ evs
      ∧ (∀ e ∈ evs, rangingEvent e = false ∧ fillReport e = false)
      ∧ Event.print .containerOpenPaused ∈ evs
      ∧ s'.trig = s.trig ∧ s'.echoN = s.echoN ∧ s'.msN = s.msN ∧ s'.usN = s.usN := by
  have ht : decide (env.tiltIn s.tiltN = 0) = true := by simpa using hopen
  obtain ⟨evs, hlog, hev, h1, h2, h3, h4⟩ :=
    poll_sensors_effect env true (emit (.print .containerOpenPaused) (tiltGet env s).2)
  refine ⟨poll_sensors env true (emit (.print .containerOpenPaused) (tiltGet env s).2),
    [.tiltRead, .print .containerOpenPaused] ++ evs, ?_, ?_, ?_, ?_, ?_, ?_, ?_, ?_⟩
  · rw [loop_cycle_eq, ht]
    rfl
  · simp [hlog]
  · intro e he
    simp only [List.mem_append, List.mem_cons, List.mem_singleton, List.not_mem_nil,
      or_false] at he
    rcases he with (h | h) | h
    · subst h; exact ⟨rfl, rfl⟩
    · subst h; exact ⟨rfl, rfl⟩
    · exact hev e h
  · simp
  · simpa using h1
  · simpa using h2
  · simpa using h3
  · simpa using h4

/-- Witness for C7: an open bin at power-on, with no fuel at all. -/
theorem open_container_skips_ranging_witness :
    envOpen.tiltIn startState.tiltN = 0
      ∧ (∃ s' evs, loop_cycle envOpen 0 startState = some s'
          ∧ s'.log = startState.log ++ evs
          ∧ (∀ e ∈ evs, rangingEvent e = false ∧ fillReport e = false)
          ∧ Event.print .containerOpenPaused ∈ evs
          ∧ s'.trig = startState.trig ∧ s'.echoN = startState.echoN
          ∧ s'.msN = startState.msN ∧ s'.usN = startState.usN)
      ∧ (loop_cycle envOpen 0 startState).map State.log
          = some [.tiltRead, .print .containerOpenPaused, .flameRead, .print .alertFlame,
              .brightnessRead, .print (.light false), .irRead, .print (.ir true),
              .ledWrite 1 1, .ledWrite 2 1, .ledWrite 3 1, .print .lightsOn,
              .print (.containerStatus true), .print .separator, .waitMs 10000] :=
  ⟨rfl, open_container_skips_ranging envOpen 0 startState rfl, rfl⟩

/-- C5: in a cycle whose IR read is non-zero (no object) the three LED levels
after the cycle equal those before it, whatever the tilt, flame, brightness
and ranging inputs are; and with an advancing timeout clock the cycle does
complete. -/
theorem leds_unchanged_without_object (env : Env) (s : State)
    (hir : env.irIn s.irN ≠ 0) :
    (∀ fuel s', loop_cycle env fuel s = some s' →
        s'.led1 = s.led1 ∧ s'.led2 = s.led2 ∧ s'.led3 = s.led3)
    ∧ (ClockAdvances env → ∃ fuel s', loop_cycle env fuel s = some s') := by
  refine ⟨?_, fun hclk => loop_cycle_terminates env hclk s⟩
  intro fuel s' h
  rw [loop_cycle_eq] at h
  cases hr : report_fill env fuel (decide (env.tiltIn s.tiltN = 0)) (tiltGet env s).2 with
  | none => rw [hr] at h; cases h
  | some s1 =>
    rw [hr] at h
    simp only [Option.some.injEq] at h
    subst h
    obtain ⟨hi, _, l1, l2, l3, _⟩ := report_fill_frame env fuel _ _ _ hr
    have hir1 : env.irIn s1.irN ≠ 0 := by
      rw [hi]; simpa using hir
    obtain ⟨k1, k2, k3⟩ := poll_sensors_leds_keep env (decide (env.tiltIn s.tiltN = 0)) s1 hir1
    refine ⟨?_, ?_, ?_⟩
    · rw [k1, l1]; rfl
    · rw [k2, l2]; rfl
    · rw [k3, l3]; rfl

/-- Witness for C5: LEDs lit by an earlier cycle stay lit through a dark cycle
without an object, in which ranging times out five times. -/
theorem leds_unchanged_without_object_witness :
    envNoObject.irIn litState.irN ≠ 0
      ∧ ∃ fuel s', loop_cycle envNoObject fuel litState = some s'
          ∧ s'.led1 = 1 ∧ s'.led2 = 1 ∧ s'.led3 = 1 := by
  have hT := leds_unchanged_without_object envNoObject litState (by decide)
  have hclk : ClockAdvances envNoObject := by
    intro i
    refine ⟨i + 3, by omega, ?_⟩
    show (25 : Int) < 10 * ((i + 3 : Nat) : Int)
    push_cast
    omega
  obtain ⟨fuel, s', hrun⟩ := hT.2 hclk
  exact ⟨by decide, fuel, s', hrun, hT.1 fuel s' hrun⟩

/-- C6: in a cycle whose IR read is 0 (object present), whatever the earlier
LED levels, the tilt read and the ranging outcome: if the brightness read is
non-zero (dark) all three LEDs are at 1 after the cycle, and if it is 0
(bright) all three are at 0; and with an advancing timeout clock the cycle
does complete. -/
theorem leds_follow_darkness_on_object (env : Env) (s : State)
    (hir : env.irIn s.irN = 0) :
    (∀ fuel s', loop_cycle env fuel s = some s' →
        (env.brightIn s.brightN ≠ 0 → s'.led1 = 1 ∧ s'.led2 = 1 ∧ s'.led3 = 1)
        ∧ (env.brightIn s.brightN = 0 → s'.led1 = 0 ∧ s'.led2 = 0 ∧ s'.led3 = 0))
    ∧ (ClockAdvances env → ∃ fuel s', loop_cycle env fuel s = some s') := by
  refine ⟨?_, fun hclk => loop_cycle_terminates env hclk s⟩
  intro fuel s' h
  rw [loop_cycle_eq] at h
  cases hr : report_fill env fuel (decide (env.tiltIn s.tiltN = 0)) (tiltGet env s).2 with
  | none => rw [hr] at h; cases h
  | some s1 =>
    rw [hr] at h
    simp only [Option.some.injEq] at h
    subst h
    obtain ⟨hi, hb, _⟩ := report_fill_frame env fuel _ _ _ hr
    have hir1 : env.irIn s1.irN = 0 := by
      rw [hi]; simpa using hir
    have hb1 : s1.brightN = s.brightN := by
      rw [hb]; rfl
    have hset := poll_sensors_leds_set env (decide (env.tiltIn s.tiltN = 0)) s1 hir1
    rw [hb1] at hset
    exact hset

/-- Witness for C6: bright surroundings and an object switch lit LEDs off. -/
theorem leds_follow_darkness_on_object_witness :
    envSilent.irIn litState.irN = 0 ∧ envSilent.brightIn litState.brightN = 0
      ∧ ∃ fuel s', loop_cycle envSilent fuel litState = some s'
          ∧ s'.led1 = 0 ∧ s'.led2 = 0 ∧ s'.led3 = 0 := by
  have hT := leds_follow_darkness_on_object envSilent litState rfl
  have hclk : ClockAdvances envSilent := by
    intro i
    refine ⟨i + 3, by omega, ?_⟩
    show (25 : Int) < 10 * ((i + 3 : Nat) : Int)
    push_cast
    omega
  obtain ⟨fuel, s', hrun⟩ := hT.2 hclk
  exact ⟨rfl, rfl, fuel, s', hrun, (hT.1 fuel s' hrun).2 rfl⟩

end WasteBin
